import Mathlib

/- Shallow embedding of the eBook cover injector sources
   (cover_fetcher.py, pdf_processor.py, gui.py).
   Python strings are modelled as lists of characters; Python floats are
   modelled as exact rationals, except where behaviour depends on IEEE-754
   double rounding, which is then modelled explicitly. -/

namespace EBook

abbrev Str := List Char

/-- Python whitespace class over ASCII, as matched by str.strip and the
regex class backslash-s. -/
def pySpace (c : Char) : Bool :=
  c == ' ' || c == '\t' || c == '\n' || c == '\x0b' || c == '\x0c' || c == '\r'

/-- Python str.strip(): drop whitespace from both ends. -/
def pyStrip (l : Str) : Str :=
  ((l.dropWhile pySpace).reverse.dropWhile pySpace).reverse

/-- Python str.upper over the characters of a string. -/
def pyUpper (l : Str) : Str := l.map Char.toUpper

/-- Python str.lower over the characters of a string. -/
def pyLower (l : Str) : Str := l.map Char.toLower

/- ------------------------------------------------------------------ -/
/- pdf_processor.py : page geometry and cover layout                  -/
/- ------------------------------------------------------------------ -/

/-- ReportLab A4 page size in points: 210mm by 297mm at 72 points per inch,
so (210*72/25.4, 297*72/25.4) = (75600/127, 106920/127). -/
def A4 : ℚ × ℚ := (75600 / 127, 106920 / 127)

/-- ReportLab LETTER page size in points: 8.5in by 11in at 72 points per inch. -/
def LETTER : ℚ × ℚ := (612, 792)

/-- The PAGE_SIZES mapping of friendly names to ReportLab page sizes. -/
def PAGE_SIZES : List (Str × (ℚ × ℚ)) := [("A4".data, A4), ("LETTER".data, LETTER)]

/-- pdf_processor._get_page_size: PAGE_SIZES.get(name.upper(), A4). -/
def get_page_size (name : Str) : ℚ × ℚ :=
  (PAGE_SIZES.lookup (pyUpper name)).getD A4

/-- The drawing geometry computed inside create_cover_page: the scaled
draw size and the centring offsets of the cover image on the page. -/
structure Layout where
  draw_w : ℚ
  draw_h : ℚ
  x : ℚ
  y : ℚ
deriving DecidableEq

/-- Geometry part of pdf_processor.create_cover_page: resolve the page
size, compare the image aspect ratio with the page aspect ratio, fit to
width when the image is relatively wider, otherwise fit to height, and
centre the scaled image. -/
def create_cover_page_layout (imgW imgH : ℕ) (page_size : Str) : Layout :=
  let wh := get_page_size page_size
  let width := wh.1
  let height := wh.2
  let aspect : ℚ := (imgW : ℚ) / (imgH : ℚ)
  let page_aspect : ℚ := width / height
  let dw : ℚ := if aspect > page_aspect then width else height * aspect
  let dh : ℚ := if aspect > page_aspect then width / aspect else height
  { draw_w := dw, draw_h := dh, x := (width - dw) / 2, y := (height - dh) / 2 }

/- ------------------------------------------------------------------ -/
/- pdf_processor.py : inject_cover (merging and write discipline)     -/
/- ------------------------------------------------------------------ -/

inductive InjectError
  | fileNotFound
  | writeFailed
deriving DecidableEq

/-- The start index into the source pages chosen by inject_cover:
1 if remove_first_page and the source has more than one page, else 0. -/
def start_page (remove_first_page : Bool) (numPages : ℕ) : ℕ :=
  if remove_first_page ∧ 1 < numPages then 1 else 0

/-- The page list built by inject_cover: the single cover page followed by
the source pages from the start index onward. -/
def merged_pages {α : Type} (cover : α) (orig : List α) (remove_first_page : Bool) : List α :=
  cover :: orig.drop (start_page remove_first_page orig.length)

/-- inject_cover restricted to page bookkeeping: a missing source file
raises FileNotFoundError, otherwise the merged page list is produced. -/
def inject_cover_pages {α : Type} (source : Option (List α)) (cover : α)
    (remove_first_page : Bool) : Except InjectError (List α) :=
  match source with
  | none => .error .fileNotFound
  | some pages => .ok (merged_pages cover pages remove_first_page)

/-- Contents of the output path and of the temporary file, as seen by
inject_cover while it writes. -/
structure MergeFS (α : Type) where
  output : Option (List α)
  tmp : Option (List α)
deriving DecidableEq

/-- Outcome of the write phase of inject_cover: the temp-file write either
completes, or fails after k pages have been written. -/
inductive WriteOutcome
  | success
  | failAfter (k : ℕ)

/-- The successive filesystem states of inject_cover's write phase:
initial, after mkstemp, after writer.write (full document on success, a
partial document on failure), and after shutil.move respectively the
cleanup os.unlink. -/
def inject_states {α : Type} (doc : List α) (w : WriteOutcome) (fs0 : MergeFS α) :
    List (MergeFS α) :=
  match w with
  | .success =>
      [fs0, ⟨fs0.output, some []⟩, ⟨fs0.output, some doc⟩, ⟨some doc, none⟩]
  | .failAfter k =>
      [fs0, ⟨fs0.output, some []⟩, ⟨fs0.output, some (doc.take k)⟩, ⟨fs0.output, none⟩]

/-- inject_cover with its write discipline: a missing source fails with
FileNotFoundError and leaves the filesystem untouched; otherwise the merged
document is written to a temp file and moved over the output on success,
while a write failure unlinks the temp file and propagates. -/
def inject_cover_fs {α : Type} (source : Option (List α)) (cover : α)
    (remove_first_page : Bool) (w : WriteOutcome) (fs0 : MergeFS α) :
    Except InjectError (List α) × MergeFS α :=
  match source with
  | none => (.error .fileNotFound, fs0)
  | some pages =>
    let doc := merged_pages cover pages remove_first_page
    match w with
    | .success => (.ok doc, ⟨some doc, none⟩)
    | .failAfter _ => (.error .writeFailed, ⟨fs0.output, none⟩)

/- ------------------------------------------------------------------ -/
/- pdf_processor.py : export_pdf, with the float space margin          -/
/- ------------------------------------------------------------------ -/

/-- Round the fraction N over D to the nearest natural number, ties to
even. -/
def rneND (N D : ℕ) : ℕ :=
  let q := N / D
  let r := N % D
  if 2 * r < D then q else if D < 2 * r then q + 1 else if q % 2 = 0 then q else q + 1

/-- Scale the fraction N over D by powers of two until it lies in the
IEEE-754 double mantissa range from 2 to the 52 up to 2 to the 53. -/
def normFl : ℕ → ℕ → ℕ → ℤ → ℕ × ℕ × ℤ
  | 0, N, D, e => (N, D, e)
  | fuel+1, N, D, e =>
    if 2^53 * D ≤ N then normFl fuel N (2 * D) (e + 1)
    else if N < 2^52 * D then normFl fuel (2 * N) D (e - 1)
    else (N, D, e)

/-- Mantissa and exponent of the IEEE-754 double nearest to the fraction
N over D (normal range only, which covers every quantity in this model):
the double value is the mantissa times 2 to the exponent. -/
def flParts (N D : ℕ) : ℕ × ℤ :=
  let t := normFl 1200 N D 0
  (rneND t.1 t.2.1, t.2.2)

/-- Exact comparison of a natural number against a double given by
mantissa and exponent, as Python compares int with float. -/
def natLtParts (a : ℕ) (p : ℕ × ℤ) : Bool :=
  if 0 ≤ p.2 then decide (a < p.1 * 2 ^ p.2.toNat)
  else decide (a * 2 ^ (-p.2).toNat < p.1)

/-- Mantissa of the IEEE-754 double nearest to 1.1, at exponent -52: the
Python literal 1.1 denotes the rational d11mant over 2 to the 52. -/
def d11mant : ℕ := rneND (11 * 2^52) 10

/-- The export_pdf space check stat.free < file_size * 1.1 as Python
evaluates it: file_size converts to double exactly, the product with the
double literal 1.1 rounds once, and the integer free-space value compares
exactly against that double. -/
def space_insufficient (free size : ℕ) : Bool :=
  natLtParts free (flParts (size * d11mant) (2^52))

inductive ExportError
  | sourceNotFound
  | destNotFound
  | insufficientSpace
  | permissionDenied
deriving DecidableEq

/-- Environment observed by export_pdf: source file, destination directory,
free space, writability, and the names involved.  Content and metadata of
the source stand in for what shutil.copy2 copies. -/
structure ExportEnv where
  source_exists : Bool
  source_size : ℕ
  source_content : Str
  source_meta : Str
  source_name : Str
  dest_is_dir : Bool
  dest_free : ℕ
  dest_writable : Bool
  dest_dir : Str
  filename : Option Str
deriving DecidableEq

/-- pdf_processor.export_pdf.  The checks run in source order: source
existence, destination existence, free space (stat.free < file_size * 1.1,
with the product computed in double precision as Python does), write
permission, then the copy.  The second component records whether the copy
was performed; on success the copied file keeps the source's content and
metadata (shutil.copy2) and the joined destination path is returned. -/
def export_pdf (env : ExportEnv) : Except ExportError (Str × Str × Str) × Bool :=
  if !env.source_exists then (.error .sourceNotFound, false)
  else if !env.dest_is_dir then (.error .destNotFound, false)
  else if space_insufficient env.dest_free env.source_size then
    (.error .insufficientSpace, false)
  else if !env.dest_writable then (.error .permissionDenied, false)
  else
    (.ok (env.dest_dir ++ '/' :: (env.filename.getD env.source_name),
          env.source_content, env.source_meta), true)

/- ------------------------------------------------------------------ -/
/- cover_fetcher.py : query sanitisation                               -/
/- ------------------------------------------------------------------ -/

/-- Final path component, as pathlib computes the name of a path. -/
def pathName (l : Str) : Str :=
  let l2 := (l.reverse.dropWhile (fun c => c == '/')).reverse
  (l2.reverse.takeWhile (fun c => !(c == '/'))).reverse

/-- Pathlib stem: the name with its final extension removed, where the
final dot counts only when it is neither the first nor the last character. -/
def pathStem (name : Str) : Str :=
  if '.' ∈ name then
    let suf := (name.reverse.takeWhile (fun c => !(c == '.'))).reverse
    let i := name.length - suf.length - 1
    if 0 < i ∧ i < name.length - 1 then name.take i else name
  else name

/-- The two str.replace calls of _sanitise_query: underscores and hyphens
become spaces. -/
def replaceSeps (l : Str) : Str :=
  l.map (fun c => if c = '_' ∨ c = '-' then ' ' else c)

def isOpenB (c : Char) : Bool := c == '(' || c == '['

def isCloseB (c : Char) : Bool := c == ')' || c == ']'

/-- Scan to the first closing bracket and return the remainder after it. -/
def spanToCloser : Str → Option Str
  | [] => none
  | c :: rest => if isCloseB c then some rest else spanToCloser rest

/-- Fuel-indexed worker for the bracket-annotation removal regex: at an
opening bracket, the greedy non-closer run followed by the first closing
bracket is deleted and scanning resumes after it; an opening bracket with
no closing bracket anywhere later can produce no further match at all. -/
def removeAnnGo : ℕ → Str → Str
  | _, [] => []
  | 0, l => l
  | fuel+1, c :: rest =>
    if isOpenB c then
      match spanToCloser rest with
      | some rest2 => removeAnnGo fuel rest2
      | none => c :: rest
    else c :: removeAnnGo fuel rest

/-- Python re.sub deleting every bracketed annotation match. -/
def removeAnnotations (l : Str) : Str := removeAnnGo l.length l

/-- Python re.sub replacing each whitespace run of length at least two by
one space: a whitespace character followed by another whitespace character
starts a collapsed run; a lone whitespace character is kept as is. -/
def collapseWs : Str → Str
  | [] => []
  | c :: rest =>
    if pySpace c then
      match rest with
      | [] => [c]
      | r :: _ =>
        if pySpace r then ' ' :: (collapseWs rest).drop 1
        else c :: collapseWs rest
    else c :: collapseWs rest

/-- cover_fetcher._sanitise_query: stem of the filename, separators to
spaces, bracketed annotations removed, whitespace runs collapsed, ends
stripped. -/
def sanitise_query (filename : Str) : Str :=
  pyStrip (collapseWs (removeAnnotations (replaceSeps (pathStem (pathName filename)))))

/- ------------------------------------------------------------------ -/
/- cover_fetcher.py : search results, backends, aggregation            -/
/- ------------------------------------------------------------------ -/

/-- cover_fetcher.CoverResult. -/
structure CoverResult where
  title : Str
  author : Str
  thumbnail_url : Str
  full_url : Str
  source : Str
deriving DecidableEq

/-- The deduplication key used in fetch_covers: cr.title.lower().strip(). -/
def titleKey (t : Str) : Str := pyStrip (pyLower t)

/-- The merge loop of fetch_covers: keep a result when its title key has
not been seen, remembering seen keys. -/
def dedupByTitle (seen : List Str) : List CoverResult → List CoverResult
  | [] => []
  | cr :: rest =>
    if titleKey cr.title ∈ seen then dedupByTitle seen rest
    else cr :: dedupByTitle (titleKey cr.title :: seen) rest

/-- The merge-and-truncate step of fetch_covers: Google Books results
first, Open Library results second, deduplicated by title key, first
max_results kept. -/
def fetch_covers_merge (google_results ol_results : List CoverResult)
    (max_results : ℕ) : List CoverResult :=
  (dedupByTitle [] (google_results ++ ol_results)).take max_results

/-- A requests.RequestException raised by an HTTP call, a non-2xx status,
or a malformed JSON body. -/
structure RequestException where
  message : Str

/-- One entry of the Google Books items array, with the fields the code
reads; a missing field is None. -/
structure GBItem where
  title : Option Str
  authors : Option (List Str)
  thumbnail : Option Str
  large : Option Str
  medium : Option Str

def startsWithStr : Str → Str → Bool
  | _, [] => true
  | [], _ :: _ => false
  | c :: s, p :: ps => c == p && startsWithStr s ps

/-- Fuel-indexed worker for str.replace of http:// by https://. -/
def httpsUpGo : ℕ → Str → Str
  | _, [] => []
  | 0, l => l
  | fuel+1, c :: rest =>
    if startsWithStr (c :: rest) "http://".data then
      "https://".data ++ httpsUpGo fuel ((c :: rest).drop 7)
    else c :: httpsUpGo fuel rest

/-- Python str.replace("http://", "https://"). -/
def httpsUpgrade (l : Str) : Str := httpsUpGo l.length l

/-- Python ", ".join(names). -/
def joinAuthors (names : List Str) : Str := List.intercalate ", ".data names

/-- The per-item body of the search_google_books loop: default the image
links, skip items without a thumbnail, upgrade the URLs to https. -/
def parseGBItem (it : GBItem) : Option CoverResult :=
  let thumb := it.thumbnail.getD []
  let full := it.large.getD (it.medium.getD thumb)
  if thumb = [] then none
  else some
    { title := it.title.getD "Unknown".data
      author := joinAuthors (it.authors.getD ["Unknown".data])
      thumbnail_url := httpsUpgrade thumb
      full_url := httpsUpgrade full
      source := "Google Books".data }

/-- cover_fetcher.search_google_books over the already-received HTTP
outcome: a raised RequestException yields the empty result list. -/
def search_google_books (resp : Except RequestException (List GBItem)) :
    List CoverResult :=
  match resp with
  | .error _ => []
  | .ok items => items.filterMap parseGBItem

/-- One document of the Open Library search response, with the fields the
code reads. -/
structure OLDoc where
  title : Option Str
  author_name : Option (List Str)
  cover_edition_key : Option Str
  edition_key : Option (List Str)

/-- OPEN_LIBRARY_COVER_URL with the olid substituted. -/
def olCoverUrl (olid : Str) : Str :=
  "https://covers.openlibrary.org/b/olid/".data ++ olid ++ "-L.jpg".data

/-- The per-document body of the search_open_library loop: cover edition
key, else first edition key, else skip. -/
def parseOLDoc (d : OLDoc) : Option CoverResult :=
  let olid0 := d.cover_edition_key.getD []
  let olid := if olid0 = [] then (d.edition_key.getD []).headD [] else olid0
  if olid = [] then none
  else some
    { title := d.title.getD "Unknown".data
      author := joinAuthors (d.author_name.getD ["Unknown".data])
      thumbnail_url := olCoverUrl olid
      full_url := olCoverUrl olid
      source := "Open Library".data }

/-- cover_fetcher.search_open_library over the already-received HTTP
outcome: a raised RequestException yields the empty result list. -/
def search_open_library (resp : Except RequestException (List OLDoc)) :
    List CoverResult :=
  match resp with
  | .error _ => []
  | .ok docs => docs.filterMap parseOLDoc

/-- cover_fetcher.fetch_covers after query derivation: both backends are
queried and their results merged, deduplicated and truncated. -/
def fetch_covers (gResp : Except RequestException (List GBItem))
    (olResp : Except RequestException (List OLDoc)) (max_results : ℕ) :
    List CoverResult :=
  fetch_covers_merge (search_google_books gResp) (search_open_library olResp) max_results

/- ------------------------------------------------------------------ -/
/- gui.py : destination resolution                                     -/
/- ------------------------------------------------------------------ -/

/-- One detected ebook reader, as the device lister reports it. -/
structure DetectedDevice where
  name : Str
  documents_dir : Str

/-- The marker prefixed to the default-directory combo entry. -/
def defaultMarker : Str := "📁 Default:".data

/-- Python substring containment: needle in hay. -/
def occursIn (needle : Str) : Str → Bool
  | [] => startsWithStr [] needle
  | c :: t => startsWithStr (c :: t) needle || occursIn needle t

/-- Text after the first colon. -/
def afterFirstColon : Str → Str
  | [] => []
  | c :: rest => if c = ':' then rest else afterFirstColon rest

/-- Python raw.split(":", 1)[-1]: the text after the first colon when one
exists, otherwise the whole string. -/
def splitColonLast (l : Str) : Str := if ':' ∈ l then afterFirstColon l else l

/-- gui._resolve_destination: strip the token; empty means none; a literal
existing directory wins; then the first detected device whose documents
directory or name occurs in the token; then the default-directory marker
entry when its directory exists; otherwise none. -/
def resolve_destination (isDir : Str → Bool) (token : Str)
    (devices : List DetectedDevice) : Option Str :=
  let raw := pyStrip token
  if raw = [] then none
  else if isDir raw then some raw
  else
    match devices.find? (fun dev => occursIn dev.documents_dir raw || occursIn dev.name raw) with
    | some dev => some dev.documents_dir
    | none =>
      if startsWithStr raw defaultMarker then
        let ddir := pyStrip (splitColonLast raw)
        if isDir ddir then some ddir else none
      else none

/- ------------------------------------------------------------------ -/
/- Predicates used to state the sanitisation claim                     -/
/- ------------------------------------------------------------------ -/

/-- Opening or closing bracket character. -/
def isOC (c : Char) : Bool := isOpenB c || isCloseB c

/-- No closing bracket occurs anywhere after an opening bracket; this is
exactly the absence of any remaining complete bracketed annotation. -/
def noCloserAfterOpener : Str → Bool
  | [] => true
  | c :: rest =>
    if isOpenB c then rest.all (fun d => !isCloseB d) else noCloserAfterOpener rest

/- ------------------------------------------------------------------ -/
/- Helper lemmas                                                       -/
/- ------------------------------------------------------------------ -/

lemma get_page_size_mem (name : Str) :
    get_page_size name = A4 ∨ get_page_size name = LETTER := by
  unfold get_page_size PAGE_SIZES
  cases h1 : (pyUpper name == "A4".data) <;>
    cases h2 : (pyUpper name == "LETTER".data) <;>
      simp [List.lookup, h1, h2]

lemma get_page_size_pos (name : Str) :
    0 < (get_page_size name).1 ∧ 0 < (get_page_size name).2 := by
  rcases get_page_size_mem name with h | h <;> rw [h] <;>
    exact ⟨by norm_num [A4, LETTER], by norm_num [A4, LETTER]⟩

lemma layout_draw_w (imgW imgH : ℕ) (ps : Str) :
    (create_cover_page_layout imgW imgH ps).draw_w =
      if ((imgW : ℚ) / imgH) > (get_page_size ps).1 / (get_page_size ps).2
      then (get_page_size ps).1 else (get_page_size ps).2 * ((imgW : ℚ) / imgH) := rfl

lemma layout_draw_h (imgW imgH : ℕ) (ps : Str) :
    (create_cover_page_layout imgW imgH ps).draw_h =
      if ((imgW : ℚ) / imgH) > (get_page_size ps).1 / (get_page_size ps).2
      then (get_page_size ps).1 / ((imgW : ℚ) / imgH) else (get_page_size ps).2 := rfl

lemma layout_x (imgW imgH : ℕ) (ps : Str) :
    (create_cover_page_layout imgW imgH ps).x =
      ((get_page_size ps).1 - (create_cover_page_layout imgW imgH ps).draw_w) / 2 := rfl

lemma layout_y (imgW imgH : ℕ) (ps : Str) :
    (create_cover_page_layout imgW imgH ps).y =
      ((get_page_size ps).2 - (create_cover_page_layout imgW imgH ps).draw_h) / 2 := rfl

/- ------------------------------------------------------------------ -/
/- Claim C10                                                           -/
/- ------------------------------------------------------------------ -/

/-- C10: page-geometry lookup is case-insensitive (only the upper-cased
name matters) and total: any name whose upper-cased form is neither A4 nor
LETTER silently resolves to the A4 dimensions, so composing a cover never
fails on an unrecognized geometry name. -/
theorem claim_C10_page_size_lookup (name other : Str) :
    (pyUpper name = pyUpper other → get_page_size name = get_page_size other) ∧
    (pyUpper name ≠ "A4".data → pyUpper name ≠ "LETTER".data →
      get_page_size name = A4) := by
  constructor
  · intro h
    unfold get_page_size
    rw [h]
  · intro h1 h2
    unfold get_page_size PAGE_SIZES
    have b1 : (pyUpper name == "A4".data) = false := beq_eq_false_iff_ne.mpr h1
    have b2 : (pyUpper name == "LETTER".data) = false := beq_eq_false_iff_ne.mpr h2
    simp [List.lookup, b1, b2]

/-- Witness for C10 at the concrete unsupported name Legal. -/
theorem claim_C10_witness : get_page_size "Legal".data = A4 :=
  (claim_C10_page_size_lookup "Legal".data "Legal".data).2 (by decide) (by decide)

/- ------------------------------------------------------------------ -/
/- Claim C3                                                            -/
/- ------------------------------------------------------------------ -/

/-- C3: for every existing source document the merged output has
1 + (source page count - start index) pages, where the start index is 1
exactly when drop_original_first_page is set and the source has more than
one page, and 0 otherwise; this holds for both flag values. -/
theorem claim_C3_page_count {α : Type} (cover : α) (pages : List α) (b : Bool) :
    inject_cover_pages (some pages) cover b = .ok (merged_pages cover pages b) ∧
    (merged_pages cover pages b).length = 1 + (pages.length - start_page b pages.length) ∧
    (start_page b pages.length = 1 ↔ (b = true ∧ 1 < pages.length)) ∧
    (start_page b pages.length = 0 ↔ ¬(b = true ∧ 1 < pages.length)) := by
  refine ⟨rfl, ?_, ?_, ?_⟩
  · simp only [merged_pages, List.length_cons, List.length_drop]
    omega
  · unfold start_page
    split_ifs with h
    · simpa using h
    · simpa using h
  · unfold start_page
    split_ifs with h
    · simpa using h
    · simpa using h

/- ------------------------------------------------------------------ -/
/- Claim C2                                                            -/
/- ------------------------------------------------------------------ -/

/-- C2: for every raster image with positive dimensions and every page
geometry, the drawn region preserves the image aspect ratio exactly, is
centred on the page, never extends beyond the page, and spans the full
page width (touching the left and right edges) when the image aspect ratio
exceeds the page aspect ratio, otherwise the full page height. -/
theorem claim_C2_cover_layout (page_size : Str) (imgW imgH : ℕ)
    (hw : 0 < imgW) (hh : 0 < imgH) :
    (create_cover_page_layout imgW imgH page_size).draw_w /
        (create_cover_page_layout imgW imgH page_size).draw_h = (imgW : ℚ) / imgH ∧
    (create_cover_page_layout imgW imgH page_size).x * 2 +
        (create_cover_page_layout imgW imgH page_size).draw_w = (get_page_size page_size).1 ∧
    (create_cover_page_layout imgW imgH page_size).y * 2 +
        (create_cover_page_layout imgW imgH page_size).draw_h = (get_page_size page_size).2 ∧
    0 ≤ (create_cover_page_layout imgW imgH page_size).x ∧
    0 ≤ (create_cover_page_layout imgW imgH page_size).y ∧
    (create_cover_page_layout imgW imgH page_size).x +
        (create_cover_page_layout imgW imgH page_size).draw_w ≤ (get_page_size page_size).1 ∧
    (create_cover_page_layout imgW imgH page_size).y +
        (create_cover_page_layout imgW imgH page_size).draw_h ≤ (get_page_size page_size).2 ∧
    ((imgW : ℚ) / imgH > (get_page_size page_size).1 / (get_page_size page_size).2 →
      (create_cover_page_layout imgW imgH page_size).x = 0 ∧
      (create_cover_page_layout imgW imgH page_size).draw_w = (get_page_size page_size).1) ∧
    (¬((imgW : ℚ) / imgH > (get_page_size page_size).1 / (get_page_size page_size).2) →
      (create_cover_page_layout imgW imgH page_size).y = 0 ∧
      (create_cover_page_layout imgW imgH page_size).draw_h = (get_page_size page_size).2) := by
  obtain ⟨hW, hH⟩ := get_page_size_pos page_size
  have hiw : (0 : ℚ) < imgW := by exact_mod_cast hw
  have hih : (0 : ℚ) < imgH := by exact_mod_cast hh
  have ha : (0 : ℚ) < (imgW : ℚ) / imgH := div_pos hiw hih
  have hWne : (get_page_size page_size).1 ≠ 0 := ne_of_gt hW
  have hHne : (get_page_size page_size).2 ≠ 0 := ne_of_gt hH
  have hane : (imgW : ℚ) / imgH ≠ 0 := ne_of_gt ha
  rw [layout_x, layout_y, layout_draw_w, layout_draw_h]
  split_ifs with hc
  · have hWa : (get_page_size page_size).1 / ((imgW : ℚ) / imgH) ≤
        (get_page_size page_size).2 := by
      rw [div_le_iff₀ ha]
      have := (div_lt_iff₀ hH).mp hc
      linarith
    refine ⟨?_, by ring, by ring, by linarith, by linarith, by linarith, by linarith,
      fun _ => ⟨by ring, rfl⟩, fun h => absurd hc h⟩
    rw [div_div_eq_mul_div, mul_comm, mul_div_assoc, div_self hWne, mul_one]
  · have hle : (imgW : ℚ) / imgH ≤ (get_page_size page_size).1 / (get_page_size page_size).2 :=
      le_of_not_lt hc
    have hHa : (get_page_size page_size).2 * ((imgW : ℚ) / imgH) ≤
        (get_page_size page_size).1 := by
      have := (le_div_iff₀ hH).mp hle
      linarith
    refine ⟨?_, by ring, by ring, by linarith, by linarith, by linarith, by linarith,
      fun h => absurd h hc, fun _ => ⟨by ring, rfl⟩⟩
    rw [mul_comm, mul_div_assoc, div_self hHne, mul_one]

/-- Witness for C2 at a 1200 by 1600 image on the A4 geometry. -/
theorem claim_C2_witness :
    (create_cover_page_layout 1200 1600 "A4".data).draw_w /
        (create_cover_page_layout 1200 1600 "A4".data).draw_h = (1200 : ℚ) / 1600 ∧
    (create_cover_page_layout 1200 1600 "A4".data).x * 2 +
        (create_cover_page_layout 1200 1600 "A4".data).draw_w = (get_page_size "A4".data).1 ∧
    (create_cover_page_layout 1200 1600 "A4".data).y * 2 +
        (create_cover_page_layout 1200 1600 "A4".data).draw_h = (get_page_size "A4".data).2 ∧
    0 ≤ (create_cover_page_layout 1200 1600 "A4".data).x ∧
    0 ≤ (create_cover_page_layout 1200 1600 "A4".data).y ∧
    (create_cover_page_layout 1200 1600 "A4".data).x +
        (create_cover_page_layout 1200 1600 "A4".data).draw_w ≤ (get_page_size "A4".data).1 ∧
    (create_cover_page_layout 1200 1600 "A4".data).y +
        (create_cover_page_layout 1200 1600 "A4".data).draw_h ≤ (get_page_size "A4".data).2 ∧
    ((1200 : ℚ) / 1600 > (get_page_size "A4".data).1 / (get_page_size "A4".data).2 →
      (create_cover_page_layout 1200 1600 "A4".data).x = 0 ∧
      (create_cover_page_layout 1200 1600 "A4".data).draw_w = (get_page_size "A4".data).1) ∧
    (¬((1200 : ℚ) / 1600 > (get_page_size "A4".data).1 / (get_page_size "A4".data).2) →
      (create_cover_page_layout 1200 1600 "A4".data).y = 0 ∧
      (create_cover_page_layout 1200 1600 "A4".data).draw_h = (get_page_size "A4".data).2) :=
  claim_C2_cover_layout "A4".data 1200 1600 (by decide) (by decide)

/- ------------------------------------------------------------------ -/
/- Claim C6                                                            -/
/- ------------------------------------------------------------------ -/

/-- C6 as stated is false: for the 1200 by 1600 image on A4 the image
aspect ratio 0.75 exceeds the page aspect ratio of about 0.707, so the
code fits to full page width and the drawn height is strictly less than
the page height — the drawn region does not span the full page height. -/
theorem claim_C6_counterexample :
    (create_cover_page_layout 1200 1600 "A4".data).draw_h ≠ (get_page_size "A4".data).2 := by
  rw [layout_draw_h]
  rw [show get_page_size "A4".data = A4 from rfl]
  simp only [A4]
  norm_num

set_option maxRecDepth 40000 in
/-- C6 (amended): the filename sanitizes to the query My Book; merging a
1200 by 1600 cover onto A4 in front of a 3-page source with the
drop-first-page flag off yields a 4-page output, the cover page followed
by the original pages unchanged in order; the drawn cover region spans the
full page width (image aspect 0.75 exceeds the A4 aspect, so the code fits
to width), touching the left and right edges, with height strictly inside
the page. -/
theorem claim_C6_end_to_end :
    sanitise_query "My_Book (2nd Edition).pdf".data = "My Book".data ∧
    inject_cover_pages (some [1, 2, 3]) (0 : ℕ) false = .ok [0, 1, 2, 3] ∧
    (merged_pages (0 : ℕ) [1, 2, 3] false).length = 4 ∧
    (create_cover_page_layout 1200 1600 "A4".data).draw_w = (get_page_size "A4".data).1 ∧
    (create_cover_page_layout 1200 1600 "A4".data).x = 0 ∧
    (create_cover_page_layout 1200 1600 "A4".data).draw_h < (get_page_size "A4".data).2 := by
  refine ⟨by decide, rfl, rfl, ?_, ?_, ?_⟩
  · rw [layout_draw_w, show get_page_size "A4".data = A4 from rfl]
    simp only [A4]
    norm_num
  · rw [layout_x, layout_draw_w, show get_page_size "A4".data = A4 from rfl]
    simp only [A4]
    norm_num
  · rw [layout_draw_h, show get_page_size "A4".data = A4 from rfl]
    simp only [A4]
    norm_num

/- ------------------------------------------------------------------ -/
/- Claim C5                                                            -/
/- ------------------------------------------------------------------ -/

/-- C5 as stated is false at exactly 1.1 times: with source size 50 bytes
and destination free space 55 bytes — exactly 1.1 times the size — the
code raises Insufficient-Space, because 50 * 1.1 in double precision
rounds to slightly more than 55. -/
theorem claim_C5_counterexample :
    export_pdf { source_exists := true, source_size := 50, source_content := [],
                 source_meta := [], source_name := "b.pdf".data, dest_is_dir := true,
                 dest_free := 55, dest_writable := true, dest_dir := "/d".data,
                 filename := none }
      = (.error .insufficientSpace, false) := by
  have h : space_insufficient 55 50 = true := by decide
  simp [export_pdf, h]

/-- C5 (amended): the checks run in the fixed order source existence,
destination existence, free space, write permission, then copy; the
Insufficient-Space failure happens exactly when free space is below
size * 1.1 as evaluated in double precision; every failure happens before
any byte is copied, and on success the copy preserves content and metadata
and the joined destination path is returned.  At exactly 1.1 times the
size the call succeeds for some sizes (30 bytes with 33 free) but fails
for others (50 bytes with 55 free) because of double rounding. -/
theorem claim_C5_export_checks (env : ExportEnv) :
    ((export_pdf env).1 = .error .sourceNotFound ↔ env.source_exists = false) ∧
    ((export_pdf env).1 = .error .destNotFound ↔
      env.source_exists = true ∧ env.dest_is_dir = false) ∧
    ((export_pdf env).1 = .error .insufficientSpace ↔
      env.source_exists = true ∧ env.dest_is_dir = true ∧
      space_insufficient env.dest_free env.source_size = true) ∧
    ((export_pdf env).1 = .error .permissionDenied ↔
      env.source_exists = true ∧ env.dest_is_dir = true ∧
      space_insufficient env.dest_free env.source_size = false ∧
      env.dest_writable = false) ∧
    ((export_pdf env).2 = true ↔
      env.source_exists = true ∧ env.dest_is_dir = true ∧
      space_insufficient env.dest_free env.source_size = false ∧
      env.dest_writable = true) ∧
    (∀ e, (export_pdf env).1 = .error e → (export_pdf env).2 = false) ∧
    ((export_pdf env).2 = true →
      (export_pdf env).1 =
        .ok (env.dest_dir ++ '/' :: (env.filename.getD env.source_name),
             env.source_content, env.source_meta)) ∧
    space_insufficient 55 50 = true ∧
    space_insufficient 33 30 = false := by
  have h1 : space_insufficient 55 50 = true := by decide
  have h2 : space_insufficient 33 30 = false := by decide
  cases hs : env.source_exists <;> cases hd : env.dest_is_dir <;>
    cases hsp : space_insufficient env.dest_free env.source_size <;>
      cases hw : env.dest_writable <;>
        simp [export_pdf, hs, hd, hsp, hw, h1, h2]

/-- Witness for C5 at a concrete environment with a missing source. -/
theorem claim_C5_witness :
    (export_pdf { source_exists := false, source_size := 1, source_content := [],
                  source_meta := [], source_name := "a".data, dest_is_dir := true,
                  dest_free := 100, dest_writable := true, dest_dir := "/d".data,
                  filename := none }).1 = .error .sourceNotFound :=
  (claim_C5_export_checks _).1.mpr rfl

/- ------------------------------------------------------------------ -/
/- Claim C7                                                            -/
/- ------------------------------------------------------------------ -/

/-- C7: a backend failure (request exception covering network failure,
malformed response or non-2xx status) yields an empty result list from
that backend and never aborts the aggregate search: the aggregate still
returns the other backend's deduplicated, truncated results. -/
theorem claim_C7_backend_isolation (e : RequestException)
    (gResp : Except RequestException (List GBItem))
    (olResp : Except RequestException (List OLDoc)) (max_results : ℕ) :
    search_google_books (.error e) = [] ∧
    search_open_library (.error e) = [] ∧
    fetch_covers (.error e) olResp max_results
      = (dedupByTitle [] (search_open_library olResp)).take max_results ∧
    fetch_covers gResp (.error e) max_results
      = (dedupByTitle [] (search_google_books gResp)).take max_results := by
  refine ⟨rfl, rfl, rfl, ?_⟩
  simp [fetch_covers, fetch_covers_merge, search_open_library]

/- ------------------------------------------------------------------ -/
/- Claim C1                                                            -/
/- ------------------------------------------------------------------ -/

lemma dedupByTitle_sublist (seen : List Str) (l : List CoverResult) :
    (dedupByTitle seen l).Sublist l := by
  induction l generalizing seen with
  | nil => simp [dedupByTitle]
  | cons cr rest ih =>
    rw [dedupByTitle]
    split_ifs with h
    · exact (ih seen).cons _
    · exact (ih _).cons₂ _

lemma dedupByTitle_nodup (seen : List Str) (l : List CoverResult) :
    ((dedupByTitle seen l).map (fun c => titleKey c.title)).Nodup ∧
    ∀ k ∈ (dedupByTitle seen l).map (fun c => titleKey c.title), k ∉ seen := by
  induction l generalizing seen with
  | nil => simp [dedupByTitle]
  | cons cr rest ih =>
    rw [dedupByTitle]
    split_ifs with h
    · exact ih seen
    · obtain ⟨ihn, ihs⟩ := ih (titleKey cr.title :: seen)
      constructor
      · simp only [List.map_cons, List.nodup_cons]
        exact ⟨fun hmem => (ihs _ hmem) (List.mem_cons_self _ _), ihn⟩
      · intro k hk
        simp only [List.map_cons, List.mem_cons] at hk
        rcases hk with rfl | hk
        · exact h
        · exact fun hkseen => (ihs k hk) (List.mem_cons_of_mem _ hkseen)

lemma dedupByTitle_covers (seen : List Str) (l : List CoverResult) :
    ∀ c ∈ l, titleKey c.title ∈ seen ∨
      titleKey c.title ∈ (dedupByTitle seen l).map (fun c => titleKey c.title) := by
  induction l generalizing seen with
  | nil => simp
  | cons cr rest ih =>
    intro c hc
    rcases List.mem_cons.mp hc with rfl | hcrest
    · by_cases h : titleKey c.title ∈ seen
      · exact Or.inl h
      · right
        rw [dedupByTitle, if_neg h]
        simp
    · by_cases h : titleKey cr.title ∈ seen
      · rw [dedupByTitle, if_pos h]
        exact ih seen c hcrest
      · rw [dedupByTitle, if_neg h]
        rcases ih (titleKey cr.title :: seen) c hcrest with hin | hin
        · rcases List.mem_cons.mp hin with heq | hin2
          · right
            simp [heq]
          · exact Or.inl hin2
        · right
          simp only [List.map_cons, List.mem_cons]
          exact Or.inr hin

lemma dedupByTitle_first (seen : List Str) (l : List CoverResult) :
    ∀ c ∈ dedupByTitle seen l, titleKey c.title ∉ seen ∧
      l.find? (fun d => titleKey d.title == titleKey c.title) = some c := by
  induction l generalizing seen with
  | nil => simp [dedupByTitle]
  | cons cr rest ih =>
    intro c hc
    by_cases h : titleKey cr.title ∈ seen
    · rw [dedupByTitle, if_pos h] at hc
      obtain ⟨hns, hfind⟩ := ih seen c hc
      have hne : titleKey cr.title ≠ titleKey c.title := fun heq => hns (heq ▸ h)
      refine ⟨hns, ?_⟩
      rw [List.find?_cons_of_neg _ (by simpa using hne)]
      exact hfind
    · rw [dedupByTitle, if_neg h] at hc
      rcases List.mem_cons.mp hc with rfl | hc2
      · exact ⟨h, List.find?_cons_of_pos _ (by simp)⟩
      · obtain ⟨hns, hfind⟩ := ih (titleKey cr.title :: seen) c hc2
        have hne : titleKey cr.title ≠ titleKey c.title :=
          fun heq => hns (heq ▸ List.mem_cons_self _ _)
        refine ⟨fun hs => hns (List.mem_cons_of_mem _ hs), ?_⟩
        rw [List.find?_cons_of_neg _ (by simpa using hne)]
        exact hfind

lemma find?_append_mem_left (p : CoverResult → Bool) (g ol : List CoverResult)
    (c : CoverResult) (hfind : (g ++ ol).find? p = some c)
    (hex : ∃ x ∈ g, p x = true) : c ∈ g := by
  induction g with
  | nil =>
    rcases hex with ⟨x, hx, _⟩
    simp at hx
  | cons a t ih =>
    rcases hpa : p a with _ | _
    · rw [List.cons_append, List.find?_cons_of_neg _ (by simp [hpa])] at hfind
      rcases hex with ⟨x, hx, hpx⟩
      rcases List.mem_cons.mp hx with rfl | hxt
      · rw [hpa] at hpx
        cases hpx
      · exact List.mem_cons_of_mem _ (ih hfind ⟨x, hxt, hpx⟩)
    · rw [List.cons_append, List.find?_cons_of_pos _ hpa] at hfind
      cases hfind
      exact List.mem_cons_self _ _

/-- C1: the aggregation of the two backend result lists deduplicates by
lower-cased trimmed title — the merged list carries each distinct title
key exactly once, is a sublist of the concatenation (so the relative order
of kept entries is preserved), each kept entry is the first occurrence of
its title key in backend-priority order (so an entry also present in the
Google Books list is kept from that earlier backend), and the final result
is the merged list truncated to at most max_results entries. -/
theorem claim_C1_aggregate_dedup (google_results ol_results : List CoverResult)
    (max_results : ℕ) :
    fetch_covers_merge google_results ol_results max_results
      = (dedupByTitle [] (google_results ++ ol_results)).take max_results ∧
    (fetch_covers_merge google_results ol_results max_results).length ≤ max_results ∧
    ((dedupByTitle [] (google_results ++ ol_results)).map
      (fun c => titleKey c.title)).Nodup ∧
    ((fetch_covers_merge google_results ol_results max_results).map
      (fun c => titleKey c.title)).Nodup ∧
    (dedupByTitle [] (google_results ++ ol_results)).Sublist
      (google_results ++ ol_results) ∧
    (∀ c ∈ google_results ++ ol_results, titleKey c.title ∈
      (dedupByTitle [] (google_results ++ ol_results)).map (fun c => titleKey c.title)) ∧
    (∀ c ∈ dedupByTitle [] (google_results ++ ol_results),
      (google_results ++ ol_results).find?
        (fun d => titleKey d.title == titleKey c.title) = some c) ∧
    (∀ c ∈ dedupByTitle [] (google_results ++ ol_results),
      (∃ cg ∈ google_results, titleKey cg.title = titleKey c.title) →
        c ∈ google_results) := by
  refine ⟨rfl, List.length_take_le _ _, (dedupByTitle_nodup [] _).1, ?_, dedupByTitle_sublist [] _,
    ?_, fun c hc => (dedupByTitle_first [] _ c hc).2, ?_⟩
  · have h := (dedupByTitle_nodup [] (google_results ++ ol_results)).1
    unfold fetch_covers_merge
    rw [List.map_take]
    exact h.sublist (List.take_sublist _ _)
  · intro c hc
    rcases dedupByTitle_covers [] (google_results ++ ol_results) c hc with hin | hin
    · simp at hin
    · exact hin
  · intro c hc ⟨cg, hcg, hkey⟩
    exact find?_append_mem_left _ _ _ _ ((dedupByTitle_first [] _ c hc).2)
      ⟨cg, hcg, by simpa using hkey⟩

/- ------------------------------------------------------------------ -/
/- Claim C4                                                            -/
/- ------------------------------------------------------------------ -/

/-- C4: a missing source document fails with the Not-Found error and
leaves the filesystem untouched; during the write phase the output path
only ever holds its previous content or the complete merged document,
never a partial one; the temporary file is always gone at the end; on a
write failure the failure propagates with the output unchanged; and the
final output appears only via the move of the completely written
temporary file. -/
theorem claim_C4_write_discipline {α : Type} (cover : α) (remove_first_page : Bool)
    (w : WriteOutcome) (fs0 : MergeFS α) (pages : List α) :
    inject_cover_fs none cover remove_first_page w fs0 = (.error .fileNotFound, fs0) ∧
    (∀ s ∈ inject_states (merged_pages cover pages remove_first_page) w fs0,
      s.output = fs0.output ∨ s.output = some (merged_pages cover pages remove_first_page)) ∧
    ((inject_cover_fs (some pages) cover remove_first_page w fs0).2).tmp = none ∧
    (∀ k, w = .failAfter k →
      (inject_cover_fs (some pages) cover remove_first_page w fs0).1 = .error .writeFailed ∧
      (inject_cover_fs (some pages) cover remove_first_page w fs0).2.output = fs0.output) ∧
    (w = .success →
      inject_cover_fs (some pages) cover remove_first_page w fs0 =
        (.ok (merged_pages cover pages remove_first_page),
         ⟨some (merged_pages cover pages remove_first_page), none⟩)) := by
  refine ⟨rfl, ?_, ?_, ?_, ?_⟩
  · intro s hs
    cases w with
    | success =>
      simp only [inject_states, List.mem_cons, List.not_mem_nil, or_false] at hs
      rcases hs with rfl | rfl | rfl | rfl <;> simp
    | failAfter k =>
      simp only [inject_states, List.mem_cons, List.not_mem_nil, or_false] at hs
      rcases hs with rfl | rfl | rfl | rfl <;> simp
  · cases w <;> rfl
  · intro k hk
    subst hk
    exact ⟨rfl, rfl⟩
  · intro hk
    subst hk
    rfl

/-- Witness for C4: a missing source yields the Not-Found error with the
filesystem unchanged. -/
theorem claim_C4_witness :
    inject_cover_fs none (7 : ℕ) true (.failAfter 1) ⟨some [9], none⟩
      = (.error .fileNotFound, ⟨some [9], none⟩) :=
  (claim_C4_write_discipline 7 true (.failAfter 1) ⟨some [9], none⟩ []).1

/- ------------------------------------------------------------------ -/
/- Claim C9                                                            -/
/- ------------------------------------------------------------------ -/

/-- C9: destination resolution returns the stripped token when it is
itself an existing directory; otherwise the documents directory of the
first known device whose documents directory or display name occurs as a
substring of the token; otherwise the directory named by the
default-directory marker entry when it exists; and in every other case —
including a blank token — it returns none rather than raising. -/
theorem claim_C9_resolve_destination (isDir : Str → Bool) (token : Str)
    (devices : List DetectedDevice) :
    (pyStrip token = [] → resolve_destination isDir token devices = none) ∧
    (pyStrip token ≠ [] → isDir (pyStrip token) = true →
      resolve_destination isDir token devices = some (pyStrip token)) ∧
    (∀ dev, pyStrip token ≠ [] → isDir (pyStrip token) = false →
      devices.find? (fun d => occursIn d.documents_dir (pyStrip token) ||
        occursIn d.name (pyStrip token)) = some dev →
      resolve_destination isDir token devices = some dev.documents_dir) ∧
    (pyStrip token ≠ [] → isDir (pyStrip token) = false →
      devices.find? (fun d => occursIn d.documents_dir (pyStrip token) ||
        occursIn d.name (pyStrip token)) = none →
      startsWithStr (pyStrip token) defaultMarker = true →
      isDir (pyStrip (splitColonLast (pyStrip token))) = true →
      resolve_destination isDir token devices
        = some (pyStrip (splitColonLast (pyStrip token)))) ∧
    (pyStrip token ≠ [] → isDir (pyStrip token) = false →
      devices.find? (fun d => occursIn d.documents_dir (pyStrip token) ||
        occursIn d.name (pyStrip token)) = none →
      (startsWithStr (pyStrip token) defaultMarker = false ∨
        isDir (pyStrip (splitColonLast (pyStrip token))) = false) →
      resolve_destination isDir token devices = none) := by
  refine ⟨?_, ?_, ?_, ?_, ?_⟩
  · intro h
    simp [resolve_destination, h]
  · intro h hdir
    simp [resolve_destination, h, hdir]
  · intro dev h hdir hfind
    simp [resolve_destination, h, hdir, hfind]
  · intro h hdir hfind hmarker hddir
    simp [resolve_destination, h, hdir, hfind, hmarker, hddir]
  · intro h hdir hfind hother
    rcases hother with hm | hd
    · simp [resolve_destination, h, hdir, hfind, hm]
    · by_cases hm : startsWithStr (pyStrip token) defaultMarker = true
      · simp [resolve_destination, h, hdir, hfind, hm, hd]
      · simp only [Bool.not_eq_true] at hm
        simp [resolve_destination, h, hdir, hfind, hm]

/-- Witness for C9: a token that strips to an existing directory resolves
to itself. -/
theorem claim_C9_witness :
    resolve_destination (fun s => s == "/mnt/books".data) " /mnt/books ".data []
      = some "/mnt/books".data :=
  (claim_C9_resolve_destination (fun s => s == "/mnt/books".data)
      " /mnt/books ".data []).2.1 (by decide) (by decide)

/- ------------------------------------------------------------------ -/
/- Claim C8 : lemmas about the sanitisation pipeline                   -/
/- ------------------------------------------------------------------ -/

lemma dropWhile_eq_self_of_all (p : Char → Bool) (l : Str)
    (h : ∀ c ∈ l, p c = false) : l.dropWhile p = l := by
  cases l with
  | nil => rfl
  | cons c rest =>
    rw [List.dropWhile_cons, if_neg]
    simp [h c (List.mem_cons_self _ _)]

lemma takeWhile_append_all (p : Char → Bool) (l1 : Str) (a : Char) (l2 : Str)
    (h1 : ∀ c ∈ l1, p c = true) (h2 : p a = false) :
    (l1 ++ a :: l2).takeWhile p = l1 := by
  induction l1 with
  | nil => simp [List.takeWhile_cons, h2]
  | cons c t ih =>
    rw [List.cons_append, List.takeWhile_cons, if_pos (h1 c (List.mem_cons_self _ _))]
    rw [ih (fun d hd => h1 d (List.mem_cons_of_mem _ hd))]

lemma head?_dropWhile (p : Char → Bool) (l : Str) :
    ∀ c, (l.dropWhile p).head? = some c → p c = false := by
  induction l with
  | nil => intro c h; cases h
  | cons a rest ih =>
    intro c h
    rw [List.dropWhile_cons] at h
    by_cases hp : p a
    · rw [if_pos hp] at h
      exact ih c h
    · rw [if_neg hp] at h
      cases h
      simpa using hp

lemma pathName_no_slash (l : Str) (h : '/' ∉ l) : pathName l = l := by
  have hall : ∀ c ∈ l.reverse, (c == '/') = false := by
    intro c hc
    have : c ≠ '/' := fun hq => h (hq ▸ List.mem_reverse.mp hc)
    simpa using this
  have h1 : l.reverse.dropWhile (fun c => c == '/') = l.reverse :=
    dropWhile_eq_self_of_all _ _ hall
  have h2 : l.reverse.takeWhile (fun c => !(c == '/')) = l.reverse := by
    apply List.takeWhile_eq_self_iff.mpr
    intro c hc
    simp [hall c hc]
  unfold pathName
  simp only [h1, List.reverse_reverse, h2]

lemma pathStem_append_ext (name ext : Str) (h1 : name ≠ []) (h2 : ext ≠ [])
    (h3 : '.' ∉ ext) : pathStem (name ++ '.' :: ext) = name := by
  have hmem : '.' ∈ name ++ '.' :: ext := List.mem_append_right _ (List.mem_cons_self _ _)
  have hrev : (name ++ '.' :: ext).reverse = ext.reverse ++ '.' :: name.reverse := by
    rw [List.reverse_append, List.reverse_cons, List.append_assoc]
    rfl
  have hsuf : ((name ++ '.' :: ext).reverse.takeWhile (fun c => !(c == '.'))).reverse
      = ext := by
    rw [hrev, takeWhile_append_all _ _ _ _ ?_ (by simp), List.reverse_reverse]
    intro c hc
    have : c ≠ '.' := fun hq => h3 (hq ▸ List.mem_reverse.mp hc)
    simpa using this
  unfold pathStem
  rw [if_pos hmem]
  simp only [hsuf]
  have hlen : (name ++ '.' :: ext).length = name.length + ext.length + 1 := by
    simp [List.length_append]
    omega
  have hi : (name ++ '.' :: ext).length - ext.length - 1 = name.length := by omega
  rw [hi, if_pos, List.take_left]
  constructor
  · exact List.length_pos.mpr h1
  · have : ext.length ≠ 0 := fun hq => h2 (List.length_eq_zero.mp hq)
    omega

lemma collapseWs_singleton (c : Char) : collapseWs [c] = [c] := by
  show (if pySpace c then [c] else c :: collapseWs []) = [c]
  split_ifs <;> rfl

lemma collapseWs_cons2 (c r : Char) (t : Str) :
    collapseWs (c :: r :: t) =
      if pySpace c then
        (if pySpace r then ' ' :: (collapseWs (r :: t)).drop 1
         else c :: collapseWs (r :: t))
      else c :: collapseWs (r :: t) := rfl

lemma collapseWs_head (c : Char) (m : Str) :
    ∃ d t, collapseWs (c :: m) = d :: t ∧ pySpace d = pySpace c := by
  cases m with
  | nil => exact ⟨c, [], collapseWs_singleton c, rfl⟩
  | cons r t =>
    rw [collapseWs_cons2]
    by_cases hc : pySpace c
    · rw [if_pos hc]
      by_cases hr : pySpace r
      · rw [if_pos hr]
        refine ⟨' ', _, rfl, ?_⟩
        rw [hc]
        rfl
      · rw [if_neg hr]
        exact ⟨c, _, rfl, rfl⟩
    · rw [if_neg hc]
      exact ⟨c, _, rfl, rfl⟩

lemma collapseWs_filter (l : Str) :
    (collapseWs l).filter (fun c => !pySpace c) = l.filter (fun c => !pySpace c) := by
  induction l with
  | nil => rfl
  | cons c m ih =>
    cases m with
    | nil => rw [collapseWs_singleton]
    | cons r t =>
      rw [collapseWs_cons2]
      by_cases hc : pySpace c
      · rw [if_pos hc]
        by_cases hr : pySpace r
        · rw [if_pos hr]
          obtain ⟨d, t2, hd, hds⟩ := collapseWs_head r t
          rw [hd] at ih ⊢
          simp only [List.drop_succ_cons, List.drop_zero]
          rw [List.filter_cons_of_neg (by simp [pySpace]),
            List.filter_cons_of_neg (by simp [hc])]
          rw [List.filter_cons_of_neg (by simp [hds, hr])] at ih
          exact ih
        · rw [if_neg hr]
          rw [List.filter_cons_of_neg (by simp [hc]),
            List.filter_cons_of_neg (by simp [hc])]
          exact ih
      · rw [if_neg hc]
        rw [List.filter_cons_of_pos (by simp [hc]),
          List.filter_cons_of_pos (by simp [hc]), ih]

lemma collapseWs_chain (l : Str) :
    (collapseWs l).Chain' (fun a b => ¬(pySpace a = true ∧ pySpace b = true)) ∧
    (∀ c m, l = c :: m → pySpace c = true →
      ∀ x, ((collapseWs l).drop 1).head? = some x → pySpace x = false) := by
  induction l with
  | nil => exact ⟨List.chain'_nil, fun c m h => by cases h⟩
  | cons c m ih =>
    constructor
    · cases m with
      | nil =>
        rw [collapseWs_singleton]
        exact List.chain'_singleton _
      | cons r t =>
        rw [collapseWs_cons2]
        by_cases hc : pySpace c
        · rw [if_pos hc]
          by_cases hr : pySpace r
          · rw [if_pos hr]
            rw [List.chain'_cons']
            constructor
            · intro y hy
              have := ih.2 r t rfl hr y (by simpa using hy)
              simp [this]
            · rw [List.drop_one]
              exact ih.1.tail
          · rw [if_neg hr]
            rw [List.chain'_cons']
            constructor
            · intro y hy
              obtain ⟨d, t2, hd, hds⟩ := collapseWs_head r t
              rw [hd] at hy
              simp only [List.head?_cons, Option.mem_def, Option.some.injEq] at hy
              subst hy
              simp [hds, hr]
            · exact ih.1
        · rw [if_neg hc]
          rw [List.chain'_cons']
          exact ⟨fun y _ => by simp [hc], ih.1⟩
    · intro c0 m0 heq hc0
      injection heq with hec hem
      subst hec
      subst hem
      intro x hx
      cases m with
      | nil =>
        rw [collapseWs_singleton] at hx
        simp at hx
      | cons r t =>
        rw [collapseWs_cons2, if_pos hc0] at hx
        by_cases hr : pySpace r
        · rw [if_pos hr] at hx
          simp only [List.drop_succ_cons, List.drop_zero] at hx
          exact ih.2 r t rfl hr x (by simpa using hx)
        · rw [if_neg hr] at hx
          simp only [List.drop_succ_cons, List.drop_zero] at hx
          obtain ⟨d, t2, hd, hds⟩ := collapseWs_head r t
          rw [hd] at hx
          simp only [List.head?_cons, Option.some.injEq] at hx
          subst hx
          rw [hds]
          simpa using hr

lemma filter_dropWhile_space (p : Char → Bool) (hp : ∀ c, pySpace c = true → p c = false)
    (l : Str) : (l.dropWhile pySpace).filter p = l.filter p := by
  induction l with
  | nil => rfl
  | cons c rest ih =>
    rw [List.dropWhile_cons]
    by_cases hc : pySpace c
    · rw [if_pos hc, ih, List.filter_cons_of_neg (by simp [hp c hc])]
    · rw [if_neg hc]

lemma pyStrip_filter (p : Char → Bool) (hp : ∀ c, pySpace c = true → p c = false)
    (l : Str) : (pyStrip l).filter p = l.filter p := by
  unfold pyStrip
  rw [List.filter_reverse, filter_dropWhile_space p hp, List.filter_reverse,
    filter_dropWhile_space p hp, List.reverse_reverse]

lemma pyStrip_head (l : Str) : ∀ c, (pyStrip l).head? = some c → pySpace c = false := by
  intro c hc
  unfold pyStrip at hc
  rw [List.head?_reverse] at hc
  have hne : (l.dropWhile pySpace).reverse.dropWhile pySpace ≠ [] := by
    intro hq
    rw [hq] at hc
    cases hc
  obtain ⟨pre, hpre⟩ : (l.dropWhile pySpace).reverse.dropWhile pySpace <:+
      (l.dropWhile pySpace).reverse := List.dropWhile_suffix _
  have h2 : ((l.dropWhile pySpace).reverse.dropWhile pySpace).getLast?
      = ((l.dropWhile pySpace).reverse).getLast? := by
    conv_rhs => rw [← hpre]
    exact (List.getLast?_append_of_ne_nil pre hne).symm
  rw [h2, List.getLast?_reverse] at hc
  exact head?_dropWhile _ _ c hc

lemma pyStrip_getLast (l : Str) : ∀ c, (pyStrip l).getLast? = some c → pySpace c = false := by
  intro c hc
  unfold pyStrip at hc
  rw [List.getLast?_reverse] at hc
  exact head?_dropWhile _ _ c hc

lemma spanToCloser_length (l : Str) :
    ∀ l2, spanToCloser l = some l2 → l2.length < l.length := by
  induction l with
  | nil => intro l2 h; cases h
  | cons c rest ih =>
    intro l2 h
    rw [spanToCloser] at h
    by_cases hc : isCloseB c
    · rw [if_pos hc] at h
      cases h
      simp
    · rw [if_neg hc] at h
      exact Nat.lt_trans (ih l2 h) (by simp)

lemma spanToCloser_sublist (l : Str) :
    ∀ l2, spanToCloser l = some l2 → l2.Sublist l := by
  induction l with
  | nil => intro l2 h; cases h
  | cons c rest ih =>
    intro l2 h
    rw [spanToCloser] at h
    by_cases hc : isCloseB c
    · rw [if_pos hc] at h
      cases h
      exact (List.sublist_cons_self _ _)
    · rw [if_neg hc] at h
      exact (ih l2 h).cons _

lemma spanToCloser_none (l : Str) (h : spanToCloser l = none) :
    ∀ c ∈ l, isCloseB c = false := by
  induction l with
  | nil => simp
  | cons a rest ih =>
    rw [spanToCloser] at h
    by_cases ha : isCloseB a
    · rw [if_pos ha] at h
      cases h
    · rw [if_neg ha] at h
      intro c hc
      rcases List.mem_cons.mp hc with rfl | hc2
      · simpa using ha
      · exact ih h c hc2

lemma noCAO_cons_opener (c : Char) (rest : Str) (h : isOpenB c = true) :
    noCloserAfterOpener (c :: rest) = rest.all (fun d => !isCloseB d) := by
  rw [noCloserAfterOpener, if_pos h]

lemma noCAO_cons_other (c : Char) (rest : Str) (h : isOpenB c = false) :
    noCloserAfterOpener (c :: rest) = noCloserAfterOpener rest := by
  rw [noCloserAfterOpener, if_neg (by simp [h])]

lemma removeAnnGo_noCAO (fuel : ℕ) :
    ∀ l : Str, l.length ≤ fuel → noCloserAfterOpener (removeAnnGo fuel l) = true := by
  induction fuel with
  | zero =>
    intro l h
    have : l = [] := List.eq_nil_of_length_eq_zero (Nat.le_zero.mp h)
    subst this
    rfl
  | succ fuel ih =>
    intro l h
    cases l with
    | nil => rfl
    | cons c rest =>
      rw [removeAnnGo]
      by_cases hc : isOpenB c
      · rw [if_pos hc]
        rcases hspan : spanToCloser rest with _ | rest2
        · rw [noCAO_cons_opener c rest hc]
          rw [List.all_eq_true]
          intro d hd
          simp [spanToCloser_none rest hspan d hd]
        · have hlen : rest2.length ≤ fuel := by
            have h1 := spanToCloser_length rest rest2 hspan
            have h2 : rest.length ≤ fuel := by simpa using Nat.succ_le_succ_iff.mp h
            omega
          exact ih rest2 hlen
      · rw [if_neg hc]
        rw [noCAO_cons_other c _ (by simpa using hc)]
        apply ih
        have : rest.length + 1 ≤ fuel + 1 := by simpa using h
        omega

lemma isOC_not_space (c : Char) (h : isOC c = true) : pySpace c = false := by
  unfold isOC isOpenB isCloseB at h
  rcases Bool.or_eq_true_iff.mp h with h1 | h1 <;> rcases Bool.or_eq_true_iff.mp h1 with h2 | h2 <;>
    rw [show c = _ from eq_of_beq h2] <;> rfl

lemma isOC_space_false (c : Char) (h : pySpace c = true) : isOC c = false := by
  cases hoc : isOC c
  · rfl
  · rw [isOC_not_space c hoc] at h
    cases h

lemma all_noCloser_filter_isOC (l : Str) :
    (l.filter isOC).all (fun d => !isCloseB d) = l.all (fun d => !isCloseB d) := by
  induction l with
  | nil => rfl
  | cons c rest ih =>
    by_cases hoc : isOC c
    · rw [List.filter_cons_of_pos hoc, List.all_cons, List.all_cons, ih]
    · have hcl : isCloseB c = false := by
        unfold isOC at hoc
        rw [Bool.not_eq_true] at hoc
        exact (Bool.or_eq_false_iff.mp hoc).2
      rw [List.filter_cons_of_neg (by simp [hoc]), List.all_cons, ih, hcl]
      simp

lemma noCAO_filter_isOC (l : Str) :
    noCloserAfterOpener (l.filter isOC) = noCloserAfterOpener l := by
  induction l with
  | nil => rfl
  | cons c rest ih =>
    by_cases hop : isOpenB c
    · have hoc : isOC c = true := by simp [isOC, hop]
      rw [List.filter_cons_of_pos hoc, noCAO_cons_opener _ _ hop, noCAO_cons_opener _ _ hop]
      exact all_noCloser_filter_isOC rest
    · by_cases hoc : isOC c
      · rw [List.filter_cons_of_pos hoc,
          noCAO_cons_other _ _ (by simpa using hop),
          noCAO_cons_other _ _ (by simpa using hop)]
        exact ih
      · rw [List.filter_cons_of_neg (by simp [hoc]),
          noCAO_cons_other _ _ (by simpa using hop)]
        exact ih

lemma filter_isOC_of_filter_nonspace (l : Str) :
    l.filter isOC = (l.filter (fun c => !pySpace c)).filter isOC := by
  rw [List.filter_filter]
  apply List.filter_congr
  intro a _
  cases hoc : isOC a
  · simp
  · simp [isOC_not_space a hoc]

lemma mem_collapseWs (l : Str) (c : Char) (h : c ∈ collapseWs l) : c ∈ l ∨ c = ' ' := by
  induction l with
  | nil => cases h
  | cons a m ih =>
    cases m with
    | nil =>
      rw [collapseWs_singleton] at h
      exact Or.inl h
    | cons r t =>
      rw [collapseWs_cons2] at h
      by_cases ha : pySpace a
      · rw [if_pos ha] at h
        by_cases hr : pySpace r
        · rw [if_pos hr] at h
          rcases List.mem_cons.mp h with rfl | h2
          · exact Or.inr rfl
          · have : c ∈ collapseWs (r :: t) := (List.drop_sublist _ _).subset h2
            rcases ih this with h3 | h3
            · exact Or.inl (List.mem_cons_of_mem _ h3)
            · exact Or.inr h3
        · rw [if_neg hr] at h
          rcases List.mem_cons.mp h with rfl | h2
          · exact Or.inl (List.mem_cons_self _ _)
          · rcases ih h2 with h3 | h3
            · exact Or.inl (List.mem_cons_of_mem _ h3)
            · exact Or.inr h3
      · rw [if_neg ha] at h
        rcases List.mem_cons.mp h with rfl | h2
        · exact Or.inl (List.mem_cons_self _ _)
        · rcases ih h2 with h3 | h3
          · exact Or.inl (List.mem_cons_of_mem _ h3)
          · exact Or.inr h3

lemma mem_removeAnnGo (fuel : ℕ) :
    ∀ (l : Str) (c : Char), c ∈ removeAnnGo fuel l → c ∈ l := by
  induction fuel with
  | zero =>
    intro l c h
    cases l with
    | nil => cases h
    | cons a rest => exact h
  | succ fuel ih =>
    intro l c h
    cases l with
    | nil => cases h
    | cons a rest =>
      rw [removeAnnGo] at h
      by_cases ha : isOpenB a
      · rw [if_pos ha] at h
        rcases hspan : spanToCloser rest with _ | rest2
        · rw [hspan] at h
          exact h
        · rw [hspan] at h
          exact List.mem_cons_of_mem _
            ((spanToCloser_sublist rest rest2 hspan).subset (ih rest2 c h))
      · rw [if_neg ha] at h
        rcases List.mem_cons.mp h with rfl | h2
        · exact List.mem_cons_self _ _
        · exact List.mem_cons_of_mem _ (ih rest c h2)

lemma mem_pyStrip (l : Str) (c : Char) (h : c ∈ pyStrip l) : c ∈ l := by
  unfold pyStrip at h
  rw [List.mem_reverse] at h
  have hsub : List.Sublist ((l.dropWhile pySpace).reverse.dropWhile pySpace)
      (l.dropWhile pySpace).reverse := List.dropWhile_sublist _
  have h2 := hsub.subset h
  rw [List.mem_reverse] at h2
  have hsub2 : List.Sublist (l.dropWhile pySpace) l := List.dropWhile_sublist _
  exact hsub2.subset h2

lemma replaceSeps_no_sep (l : Str) (c : Char) (h : c ∈ replaceSeps l) :
    c ≠ '_' ∧ c ≠ '-' := by
  unfold replaceSeps at h
  obtain ⟨a, _, ha⟩ := List.mem_map.mp h
  by_cases hsep : a = '_' ∨ a = '-'
  · rw [if_pos hsep] at ha
    subst ha
    exact ⟨by decide, by decide⟩
  · rw [if_neg hsep] at ha
    subst ha
    push_neg at hsep
    exact hsep

lemma pyStrip_isInfix (l : Str) : pyStrip l <:+: l := by
  unfold pyStrip
  have h1 : (l.dropWhile pySpace).reverse.dropWhile pySpace <:+
      (l.dropWhile pySpace).reverse := List.dropWhile_suffix _
  have h2 : ((l.dropWhile pySpace).reverse.dropWhile pySpace).reverse <+:
      l.dropWhile pySpace := by
    apply List.reverse_suffix.mp
    rw [List.reverse_reverse]
    exact h1
  have h3 : l.dropWhile pySpace <:+ l := List.dropWhile_suffix _
  exact List.IsInfix.trans (List.IsPrefix.isInfix h2) (List.IsSuffix.isInfix h3)

/-- C8: query derivation strips the final file extension; the sanitized
result contains no underscore or hyphen (separators became spaces), no
complete bracketed annotation (no closing bracket anywhere after an
opening bracket), no two adjacent whitespace characters (runs collapsed
to a single space), and no leading or trailing whitespace. -/
theorem claim_C8_sanitise_query (filename name ext : Str)
    (h1 : name ≠ []) (h2 : ext ≠ []) (h3 : '.' ∉ ext)
    (h4 : '/' ∉ name) (h5 : '/' ∉ ext) :
    pathStem (pathName (name ++ '.' :: ext)) = name ∧
    '_' ∉ sanitise_query filename ∧
    '-' ∉ sanitise_query filename ∧
    noCloserAfterOpener (sanitise_query filename) = true ∧
    (sanitise_query filename).Chain' (fun a b => ¬(pySpace a = true ∧ pySpace b = true)) ∧
    (∀ c, (sanitise_query filename).head? = some c → pySpace c = false) ∧
    (∀ c, (sanitise_query filename).getLast? = some c → pySpace c = false) := by
  refine ⟨?_, ?_, ?_, ?_, ?_, pyStrip_head _, pyStrip_getLast _⟩
  · have hns : '/' ∉ name ++ '.' :: ext := by
      intro hmem
      rcases List.mem_append.mp hmem with hmem | hmem
      · exact h4 hmem
      · rcases List.mem_cons.mp hmem with hmem | hmem
        · cases hmem
        · exact h5 hmem
    rw [pathName_no_slash _ hns]
    exact pathStem_append_ext name ext h1 h2 h3
  · intro hmem
    have hm1 := mem_pyStrip _ _ hmem
    rcases mem_collapseWs _ _ hm1 with hm2 | hm2
    · have hm3 := mem_removeAnnGo _ _ _ hm2
      exact absurd rfl (replaceSeps_no_sep _ _ hm3).1
    · cases hm2
  · intro hmem
    have hm1 := mem_pyStrip _ _ hmem
    rcases mem_collapseWs _ _ hm1 with hm2 | hm2
    · have hm3 := mem_removeAnnGo _ _ _ hm2
      exact absurd rfl (replaceSeps_no_sep _ _ hm3).2
    · cases hm2
  · unfold sanitise_query
    rw [← noCAO_filter_isOC]
    rw [pyStrip_filter isOC isOC_space_false]
    rw [filter_isOC_of_filter_nonspace, collapseWs_filter,
      ← filter_isOC_of_filter_nonspace]
    rw [noCAO_filter_isOC]
    exact removeAnnGo_noCAO _ _ le_rfl
  · unfold sanitise_query
    have hchain := (collapseWs_chain (removeAnnotations (replaceSeps
      (pathStem (pathName filename))))).1
    have hinf : pyStrip (collapseWs (removeAnnotations (replaceSeps
        (pathStem (pathName filename))))) <:+:
        collapseWs (removeAnnotations (replaceSeps (pathStem (pathName filename)))) := by
      apply pyStrip_isInfix
    exact List.Chain'.infix hchain hinf

/-- Witness for C8: the extension pdf is stripped from the name doc, with
every hypothesis discharged at these concrete strings. -/
theorem claim_C8_witness :
    pathStem (pathName ("doc".data ++ '.' :: "pdf".data)) = "doc".data :=
  (claim_C8_sanitise_query "My_Book (2nd Edition).pdf".data "doc".data "pdf".data
    (by decide) (by decide) (by decide) (by decide) (by decide)).1

/-- Witness for C1 at two concrete backend lists whose titles differ only
in case and surrounding whitespace. -/
theorem claim_C1_witness :
    (fetch_covers_merge
      [{ title := "A Book".data, author := "X".data, thumbnail_url := "t".data,
         full_url := "f".data, source := "Google Books".data }]
      [{ title := " a book ".data, author := "Y".data, thumbnail_url := "u".data,
         full_url := "g".data, source := "Open Library".data }] 8).length ≤ 8 :=
  (claim_C1_aggregate_dedup
    [{ title := "A Book".data, author := "X".data, thumbnail_url := "t".data,
       full_url := "f".data, source := "Google Books".data }]
    [{ title := " a book ".data, author := "Y".data, thumbnail_url := "u".data,
       full_url := "g".data, source := "Open Library".data }] 8).2.1

/-- Witness for C3 at a concrete two-page source with the drop flag set. -/
theorem claim_C3_witness :
    inject_cover_pages (some [1, 2]) (0 : ℕ) true = .ok (merged_pages 0 [1, 2] true) :=
  (claim_C3_page_count (0 : ℕ) [1, 2] true).1

/-- Witness for C7 at a concrete request exception. -/
theorem claim_C7_witness :
    search_google_books (.error ⟨"connection refused".data⟩) = [] :=
  (claim_C7_backend_isolation ⟨"connection refused".data⟩ (.ok []) (.ok []) 8).1

end EBook
